import Mathlib

/-!
Shallow embedding of the attendance engine of `src/src/App.tsx` (a child-care
attendance tracker).  The embedding translates the TypeScript source directly:

* JavaScript objects `Record<string, T>` become association lists
  `List (String × T)`; reading `obj[k]` is `getKey k l` (first match) and the
  copy-and-assign idiom `{ ...obj, [k]: v }` is `setKey k v l`, which replaces
  the first entry holding `k` in place, or appends a fresh entry at the end —
  exactly the key-ordering behaviour of JavaScript object spread plus
  assignment.
* Optional fields (`checkInMs?: number`) become `Option` values.
* Epoch-millisecond timestamps are `Nat`.  JavaScript truthiness tests on
  numbers (`!startMs`, `!!a.checkInMs`) are modelled faithfully: the number `0`
  is falsy, so it counts as "missing" wherever the source tests truthiness.
* `String.prototype.trim`, `toLowerCase` and `includes` are modelled on the
  character list of the string (`jsTrim`, `jsToLower`, `strIncludes`).
* `Math.round(diff / 60000)` for `diff ≥ 0` is the natural-number expression
  `(diff + 30000) / 60000` (round half up); for the timestamp magnitudes the
  source can produce, binary floating point evaluates `diff / 60000` far more
  precisely than the distance to a rounding boundary, so the integer form is
  exact.
* `Array.prototype.sort` (guaranteed stable) with a total preorder comparator
  is modelled by `List.insertionSort`, which is stable and sorts by the same
  order, hence produces the identical output list.
-/

/-- `Child` record from the source (`type Child`). -/
structure Child where
  id : String
  firstName : String
  lastName : String
  isActive : Bool
  guardian : String
  allergies : Option String
deriving DecidableEq

/-- Status enum of an attendance record (`"PRESENT" | "ABSENT"`). -/
inductive Status where
  | PRESENT
  | ABSENT
deriving DecidableEq

/-- `Attendance` record from the source (`type Attendance`). -/
structure Attendance where
  status : Status
  checkInMs : Option Nat
  checkOutMs : Option Nat
  totalMinutes : Option Nat
  checkInNote : Option String
  checkOutNote : Option String
deriving DecidableEq

/-- A single day's mapping from child id to attendance record
(`Record<string, Attendance>`). -/
abbrev DayMap := List (String × Attendance)

/-- The full history: day key to day map
(`Record<string, Record<string, Attendance>>`). -/
abbrev AttendanceHistory := List (String × DayMap)

/-- The persisted snapshot: roster plus history (the component state
`kids` / `attendance`, persisted together by `saveState`). -/
structure Snapshot where
  kids : List Child
  attendance : AttendanceHistory
deriving DecidableEq

/-- Reading `obj[k]` on a JavaScript object modelled as an association list:
the value of the first entry with key `k`, if any. -/
def getKey {α : Type} (k : String) : List (String × α) → Option α
  | [] => none
  | (k', v) :: t => if k' = k then some v else getKey k t

/-- The `{ ...obj }; obj[k] = v` idiom: replace the first entry with key `k`
in place, or append `(k, v)` when the key is new. -/
def setKey {α : Type} (k : String) (v : α) : List (String × α) → List (String × α)
  | [] => [(k, v)]
  | (k', v') :: t => if k' = k then (k, v) :: t else (k', v') :: setKey k v t

/-- `minutesBetween(startMs?, endMs?)` from the source.  `!startMs` and
`!endMs` are JavaScript truthiness tests, so `0` is treated like a missing
endpoint; negative differences yield `undefined`; otherwise
`Math.round(diff / 60000)` which is `(diff + 30000) / 60000` over `Nat`. -/
def minutesBetween (startMs endMs : Option Nat) : Option Nat :=
  match startMs, endMs with
  | some s, some e =>
    if s = 0 ∨ e = 0 then none
    else if e < s then none
    else some ((e - s + 30000) / 60000)
  | _, _ => none

/-- Character-list model of `String.prototype.trim`: drop whitespace from both
ends. -/
def trimChars (l : List Char) : List Char :=
  ((l.dropWhile Char.isWhitespace).reverse.dropWhile Char.isWhitespace).reverse

/-- `s.trim()` on strings. -/
def jsTrim (s : String) : String := ⟨trimChars s.data⟩

/-- `s.toLowerCase()`: character-wise lower-casing. -/
def jsToLower (s : String) : String := ⟨s.data.map Char.toLower⟩

/-- `pat` occurs at the start of the second list. -/
def chPrefAt : List Char → List Char → Bool
  | [], _ => true
  | _ :: _, [] => false
  | p :: ps, h :: hs => p == h && chPrefAt ps hs

/-- `pat` occurs somewhere in `hay` (contiguously). -/
def chContains (pat : List Char) : List Char → Bool
  | [] => chPrefAt pat []
  | h :: hs => chPrefAt pat (h :: hs) || chContains pat hs

/-- `s.includes(pat)` on strings. -/
def strIncludes (s pat : String) : Bool := chContains pat.data s.data

/-- `appendNote(current, add)` from the source: trim both, return the other on
emptiness, suppress case-insensitive duplicate fragments, else join with
`" • "`. -/
def appendNote (current add : String) : String :=
  let c := jsTrim current
  let a := jsTrim add
  if a = "" then c
  else if c = "" then a
  else if strIncludes (jsToLower c) (jsToLower a) then c
  else c ++ " • " ++ a

/-- `x || ""` on an optional string (`existing?.checkInNote || ""`):
the string when present and non-empty, else `""`. -/
def jsOrEmpty (o : Option String) : String :=
  match o with
  | none => ""
  | some s => if s = "" then "" else s

/-- `doCheckIn(childId, note)` from the source, with the component's
`dateKey` and `Date.now()` passed explicitly.  Overwrites the day's record for
the child with a fresh PRESENT record. -/
def doCheckIn (attendance : AttendanceHistory) (dateKey childId note : String)
    (now : Nat) : AttendanceHistory :=
  let d := (getKey dateKey attendance).getD []
  setKey dateKey (setKey childId
    { status := Status.PRESENT
      checkInMs := some now
      checkOutMs := none
      totalMinutes := none
      checkInNote := some (if note = "" then "" else note)
      checkOutNote := some "" } d) attendance

/-- `doCheckOut(childId, note)` from the source: reads the existing record for
`(dateKey, childId)`, preserves its check-in data, stamps the check-out. -/
def doCheckOut (attendance : AttendanceHistory) (dateKey childId note : String)
    (now : Nat) : AttendanceHistory :=
  let dayMap := (getKey dateKey attendance).getD []
  let existing := getKey childId dayMap
  let total := minutesBetween (existing.bind fun r => r.checkInMs) (some now)
  setKey dateKey (setKey childId
    { status := Status.ABSENT
      checkInMs := existing.bind fun r => r.checkInMs
      checkOutMs := some now
      totalMinutes := some (total.getD 0)
      checkInNote := some (jsOrEmpty (existing.bind fun r => r.checkInNote))
      checkOutNote := some (if note = "" then "" else note) } dayMap) attendance

/-- Snapshot-level check-in: the source's `commit(kids, next)` keeps the
roster and replaces the history. -/
def checkIn (s : Snapshot) (dateKey childId note : String) (now : Nat) : Snapshot :=
  { kids := s.kids, attendance := doCheckIn s.attendance dateKey childId note now }

/-- Snapshot-level check-out. -/
def checkOut (s : Snapshot) (dateKey childId note : String) (now : Nat) : Snapshot :=
  { kids := s.kids, attendance := doCheckOut s.attendance dateKey childId note now }

/-- The record looked up for one `(dayKey, childId)` pair,
`attendance[dayKey]?.[childId]`. -/
def dayRecord (att : AttendanceHistory) (dateKey childId : String) : Option Attendance :=
  getKey childId ((getKey dateKey att).getD [])

/-- The `ADD` / `EDIT` modal mode of the children form. -/
inductive ChildMode where
  | ADD
  | EDIT
deriving DecidableEq

/-- The child form state (`childForm`). -/
structure ChildForm where
  firstName : String
  lastName : String
  guardian : String
  allergies : String
  isActive : Bool
deriving DecidableEq

/-- `saveChild()` from the source, with the freshly generated random id passed
explicitly.  Declines (returns the inputs unchanged) when a trimmed required
field is empty; otherwise appends a new child (ADD) or field-copies onto the
child with `editId` (EDIT). -/
def saveChild (kids : List Child) (attendance : AttendanceHistory)
    (childMode : ChildMode) (editId : Option String) (childForm : ChildForm)
    (freshId : String) : List Child × AttendanceHistory :=
  let f := jsTrim childForm.firstName
  let l := jsTrim childForm.lastName
  let g := jsTrim childForm.guardian
  if f = "" ∨ l = "" ∨ g = "" then (kids, attendance)
  else
    match childMode, editId with
    | ChildMode.ADD, _ =>
      (kids ++ [{ id := freshId, firstName := f, lastName := l,
                  guardian := g, allergies := some (jsTrim childForm.allergies),
                  isActive := childForm.isActive }], attendance)
    | ChildMode.EDIT, some eid =>
      (kids.map fun k =>
        if k.id = eid then
          { k with firstName := f, lastName := l, guardian := g,
                   allergies := some (jsTrim childForm.allergies),
                   isActive := childForm.isActive }
        else k, attendance)
    | ChildMode.EDIT, none => (kids, attendance)

/-- The Archive/Restore button handler: flip `isActive` on the child with the
clicked id, commit with the history untouched. -/
def toggleArchive (s : Snapshot) (cid : String) : Snapshot :=
  { kids := s.kids.map fun x =>
      if x.id = cid then { x with isActive := !x.isActive } else x
    attendance := s.attendance }

/-- `!!a.checkInMs`: truthiness of an optional number. -/
def jsTruthy (o : Option Nat) : Bool :=
  match o with
  | none => false
  | some n => decide (n ≠ 0)

/-- The defensive presence test of the aggregator:
`a.status === "PRESENT" || !!a.checkInMs || mins > 0` where `mins` defaults
the missing `totalMinutes` to `0`. -/
def presentB (a : Attendance) : Bool :=
  decide (a.status = Status.PRESENT) || jsTruthy a.checkInMs
    || decide (0 < a.totalMinutes.getD 0)

/-- One totals-map update of the aggregator's inner loop:
`cur = totals.get(childId) ?? {days: 0, minutes: 0}; cur.minutes += mins;
if (present) cur.days += 1; totals.set(childId, cur)`.  The `Map` is modelled
as a total function defaulting to `(0, 0)`, component order `(days, minutes)`. -/
def updTotals (t : String → Nat × Nat) (cid : String) (a : Attendance) :
    String → Nat × Nat :=
  let mins := a.totalMinutes.getD 0
  let cur := t cid
  fun c => if c = cid then (cur.1 + (if presentB a then 1 else 0), cur.2 + mins) else t c

/-- The aggregator's inner loop over one day's records. -/
def procDay (t : String → Nat × Nat) (dm : DayMap) : String → Nat × Nat :=
  dm.foldl (fun t p => updTotals t p.1 p.2) t

/-- The aggregator's totals pass: iterate `Object.keys(attendance).sort()` and
fold each day's records into the totals map. -/
def aggTotals (attendance : AttendanceHistory) : String → Nat × Nat :=
  ((attendance.map Prod.fst).insertionSort (fun x y => x ≤ y)).foldl
    (fun t dKey => procDay t ((getKey dKey attendance).getD [])) (fun _ => (0, 0))

/-- One output row of the report (`reportRows` elements). -/
structure ReportRow where
  id : String
  name : String
  days : Nat
  minutes : Nat
  active : Bool
deriving DecidableEq

/-- Comparator order of the final `.sort((a, b) => b.minutes - a.minutes)`:
descending minutes. -/
def rowGe (a b : ReportRow) : Prop := b.minutes ≤ a.minutes

instance : DecidableRel rowGe := fun a b =>
  inferInstanceAs (Decidable (b.minutes ≤ a.minutes))

instance : IsTotal ReportRow rowGe :=
  ⟨fun a b => Nat.le_total b.minutes a.minutes⟩

instance : IsTrans ReportRow rowGe :=
  ⟨fun _ _ _ hab hbc => Nat.le_trans hbc hab⟩

/-- The pre-sort row list `kids.map (k => ({...}))` of `reportRows`. -/
def rawRows (kids : List Child) (attendance : AttendanceHistory) : List ReportRow :=
  kids.map fun k =>
    { id := k.id
      name := k.firstName ++ " " ++ k.lastName
      days := (aggTotals attendance k.id).1
      minutes := (aggTotals attendance k.id).2
      active := k.isActive }

/-- `reportRows` from the source: seed rows from the full roster, then the
stable sort by descending minutes. -/
def reportRows (kids : List Child) (attendance : AttendanceHistory) : List ReportRow :=
  (rawRows kids attendance).insertionSort rowGe

/-- All attendance records stored for one child across the whole history, in
history order (used to state the aggregation claims). -/
def recordsFor (att : AttendanceHistory) (c : String) : List Attendance :=
  match att with
  | [] => []
  | d :: rest => (d.2.filter fun p => decide (p.1 = c)).map Prod.snd ++ recordsFor rest c

/-! ### Association-list lemmas -/

theorem getKey_setKey_self {α : Type} (k : String) (v : α) (l : List (String × α)) :
    getKey k (setKey k v l) = some v := by
  induction l with
  | nil => simp [getKey, setKey]
  | cons hd t ih =>
    obtain ⟨k0, v0⟩ := hd
    by_cases hk : k0 = k
    · simp [getKey, setKey, hk]
    · simpa [getKey, setKey, hk] using ih

theorem getKey_setKey_ne {α : Type} (k k' : String) (v : α) (l : List (String × α))
    (h : k' ≠ k) : getKey k' (setKey k v l) = getKey k' l := by
  have h' : ¬ k = k' := fun hh => h hh.symm
  induction l with
  | nil => simp [getKey, setKey, h']
  | cons hd t ih =>
    obtain ⟨k0, v0⟩ := hd
    by_cases hk : k0 = k
    · subst hk
      simp [getKey, setKey, h']
    · by_cases hk' : k0 = k'
      · simp [getKey, setKey, hk, hk', h]
      · simpa [getKey, setKey, hk, hk'] using ih

theorem getKey_mem {α : Type} (k : String) (l : List (String × α)) (v : α)
    (h : getKey k l = some v) : (k, v) ∈ l := by
  induction l with
  | nil => simp [getKey] at h
  | cons hd t ih =>
    obtain ⟨k0, v0⟩ := hd
    by_cases hk : k0 = k
    · subst hk
      simp [getKey] at h
      subst h
      exact List.mem_cons_self _ _
    · simp only [getKey, if_neg hk] at h
      exact List.mem_cons_of_mem _ (ih h)

theorem jsOrEmpty_eq_getD (o : Option String) : jsOrEmpty o = o.getD "" := by
  cases o with
  | none => rfl
  | some s => by_cases h : s = "" <;> simp [jsOrEmpty, h]

/-- Claim C1: for every snapshot, child id, note and instant, check-in
creates or overwrites the `(dateKey, childId)` record with `status = PRESENT`,
`checkInMs = now`, `checkOutMs` and `totalMinutes` cleared, `checkInNote` the
given note (which is `""` when the note is empty) and `checkOutNote` reset to
`""`, regardless of any prior record; the roster is untouched. -/
theorem C1_checkIn_record (s : Snapshot) (dateKey childId note : String) (now : Nat) :
    (checkIn s dateKey childId note now).kids = s.kids ∧
    dayRecord (checkIn s dateKey childId note now).attendance dateKey childId =
      some { status := Status.PRESENT, checkInMs := some now, checkOutMs := none,
             totalMinutes := none, checkInNote := some note, checkOutNote := some "" } := by
  constructor
  · rfl
  · simp only [checkIn, dayRecord, doCheckIn, getKey_setKey_self, Option.getD_some]
    by_cases h : note = "" <;> simp [h]

/-- Claim C2: for every snapshot, child id, note and instant, check-out sets
the day's record to `status = ABSENT`, keeps the existing record's `checkInMs`
and its check-in note text (empty when absent), sets `checkOutMs = now`,
`totalMinutes = minutesBetween(checkInMs, now)` defaulting to `0`, and
`checkOutNote` to the given note; with no prior record this yields
`status = ABSENT`, `checkInMs` absent and `totalMinutes = 0`. -/
theorem C2_checkOut_record (s : Snapshot) (dateKey childId note : String) (now : Nat) :
    (checkOut s dateKey childId note now).kids = s.kids ∧
    dayRecord (checkOut s dateKey childId note now).attendance dateKey childId =
      some { status := Status.ABSENT,
             checkInMs := (dayRecord s.attendance dateKey childId).bind fun r => r.checkInMs,
             checkOutMs := some now,
             totalMinutes := some ((minutesBetween
               ((dayRecord s.attendance dateKey childId).bind fun r => r.checkInMs)
               (some now)).getD 0),
             checkInNote := some (((dayRecord s.attendance dateKey childId).bind
               fun r => r.checkInNote).getD ""),
             checkOutNote := some note } ∧
    (dayRecord s.attendance dateKey childId = none →
      dayRecord (checkOut s dateKey childId note now).attendance dateKey childId =
        some { status := Status.ABSENT, checkInMs := none, checkOutMs := some now,
               totalMinutes := some 0, checkInNote := some "", checkOutNote := some note }) := by
  refine ⟨rfl, ?_, ?_⟩
  · simp only [checkOut, dayRecord, doCheckOut, getKey_setKey_self, Option.getD_some,
      jsOrEmpty_eq_getD]
    by_cases h : note = "" <;> simp [h]
  · intro hnone
    simp only [dayRecord] at hnone
    simp only [checkOut, dayRecord, doCheckOut, getKey_setKey_self, Option.getD_some,
      jsOrEmpty_eq_getD, hnone]
    by_cases h : note = "" <;> simp [h, minutesBetween]

/-- Claim C6: a check-in or check-out for `(dateKey, childId)` leaves every
other day's entry, and every other child's record within the same day,
unchanged. -/
theorem C6_transition_frame (s : Snapshot) (dateKey childId note : String) (now : Nat)
    (dayKey' childId' : String) :
    (dayKey' ≠ dateKey →
      getKey dayKey' (checkIn s dateKey childId note now).attendance =
        getKey dayKey' s.attendance ∧
      getKey dayKey' (checkOut s dateKey childId note now).attendance =
        getKey dayKey' s.attendance) ∧
    (childId' ≠ childId →
      dayRecord (checkIn s dateKey childId note now).attendance dateKey childId' =
        dayRecord s.attendance dateKey childId' ∧
      dayRecord (checkOut s dateKey childId note now).attendance dateKey childId' =
        dayRecord s.attendance dateKey childId') := by
  constructor
  · intro hd
    exact ⟨getKey_setKey_ne _ _ _ _ hd, getKey_setKey_ne _ _ _ _ hd⟩
  · intro hc
    constructor
    · simp only [checkIn, dayRecord, doCheckIn, getKey_setKey_self, Option.getD_some]
      exact getKey_setKey_ne _ _ _ _ hc
    · simp only [checkOut, dayRecord, doCheckOut, getKey_setKey_self, Option.getD_some]
      exact getKey_setKey_ne _ _ _ _ hc

/-- Witness for C2 at a concrete empty snapshot. -/
theorem C2_checkOut_record_witness :
    dayRecord (checkOut ⟨[], []⟩ "2024-01-01" "k1" "bye" 90000).attendance
        "2024-01-01" "k1" =
      some { status := Status.ABSENT, checkInMs := none, checkOutMs := some 90000,
             totalMinutes := some 0, checkInNote := some "", checkOutNote := some "bye" } :=
  (C2_checkOut_record ⟨[], []⟩ "2024-01-01" "k1" "bye" 90000).2.2 rfl

/-- Witness for C6 at concrete distinct keys. -/
theorem C6_transition_frame_witness :
    getKey "2024-01-02"
        (checkIn ⟨[], [("2024-01-02", [])]⟩ "2024-01-01" "k1" "" 5).attendance =
      getKey "2024-01-02" ([("2024-01-02", [])] : AttendanceHistory) ∧
    dayRecord (checkOut ⟨[], []⟩ "2024-01-01" "k1" "" 5).attendance "2024-01-01" "k2" =
      dayRecord ([] : AttendanceHistory) "2024-01-01" "k2" :=
  ⟨((C6_transition_frame ⟨[], [("2024-01-02", [])]⟩ "2024-01-01" "k1" "" 5
      "2024-01-02" "k2").1 (by decide)).1,
   ((C6_transition_frame ⟨[], []⟩ "2024-01-01" "k1" "" 5
      "2024-01-02" "k2").2 (by decide)).2⟩

/-! ### Trim / lower-case / substring lemmas -/

/-- No leading whitespace: the head, when it exists, is not whitespace. -/
def noWsHead (l : List Char) : Prop :=
  ∀ x, l.head? = some x → x.isWhitespace = false

theorem noWsHead_nil : noWsHead [] := by
  intro x h
  simp at h

theorem noWsHead_dropWhile (l : List Char) :
    noWsHead (l.dropWhile Char.isWhitespace) := by
  induction l with
  | nil => exact noWsHead_nil
  | cons a t ih =>
    intro x h
    rw [List.dropWhile_cons] at h
    by_cases ha : a.isWhitespace
    · exact ih x (by simpa [ha] using h)
    · rw [if_neg (by simpa using ha)] at h
      simp only [List.head?_cons, Option.some.injEq] at h
      subst h
      simpa using ha

theorem dropWhile_of_noWsHead (l : List Char) (h : noWsHead l) :
    l.dropWhile Char.isWhitespace = l := by
  cases l with
  | nil => rfl
  | cons a t =>
    rw [List.dropWhile_cons, if_neg]
    rw [h a rfl]
    simp

theorem noWsHead_revDrop (l : List Char) (h : noWsHead l) :
    noWsHead ((l.reverse.dropWhile Char.isWhitespace).reverse) := by
  cases l with
  | nil => exact noWsHead_nil
  | cons a t =>
    have ha : a.isWhitespace = false := h a rfl
    rw [List.reverse_cons, List.dropWhile_append]
    by_cases he : (t.reverse.dropWhile Char.isWhitespace).isEmpty
    · rw [if_pos he]
      intro x hx
      rw [List.dropWhile_cons] at hx
      simp only [ha, Bool.false_eq_true, if_false, List.dropWhile_nil] at hx
      simp only [List.reverse_cons, List.reverse_nil, List.nil_append,
        List.head?_cons] at hx
      cases hx
      exact ha
    · rw [if_neg he]
      intro x hx
      rw [List.reverse_append] at hx
      simp only [List.reverse_cons, List.reverse_nil, List.nil_append,
        List.head?_cons, Option.some.injEq] at hx
      cases hx
      exact ha

theorem trimChars_noWsHead (l : List Char) : noWsHead (trimChars l) :=
  noWsHead_revDrop _ (noWsHead_dropWhile l)

theorem trimChars_reverse_noWsHead (l : List Char) : noWsHead (trimChars l).reverse := by
  unfold trimChars
  rw [List.reverse_reverse]
  exact noWsHead_dropWhile _

theorem trimChars_of_trimmed (l : List Char) (h1 : noWsHead l) (h2 : noWsHead l.reverse) :
    trimChars l = l := by
  unfold trimChars
  rw [dropWhile_of_noWsHead l h1, dropWhile_of_noWsHead l.reverse h2,
    List.reverse_reverse]

theorem trimChars_idem (l : List Char) : trimChars (trimChars l) = trimChars l :=
  trimChars_of_trimmed _ (trimChars_noWsHead l) (trimChars_reverse_noWsHead l)

theorem jsTrim_idem (s : String) : jsTrim (jsTrim s) = jsTrim s :=
  congrArg String.mk (trimChars_idem s.data)

theorem string_data_append (s t : String) : (s ++ t).data = s.data ++ t.data := rfl

theorem string_eq_empty_iff (s : String) : s = "" ↔ s.data = [] := by
  constructor
  · intro h
    rw [h]
  · intro h
    exact String.ext h

theorem noWsHead_append_left (c r : List Char) (hne : c ≠ []) (h : noWsHead c) :
    noWsHead (c ++ r) := by
  cases c with
  | nil => exact absurd rfl hne
  | cons x t =>
    intro y hy
    simp only [List.cons_append, List.head?_cons, Option.some.injEq] at hy
    cases hy
    exact h x rfl

theorem trimChars_append_of_trimmed (c mid a : List Char)
    (hc : c ≠ []) (ha : a ≠ []) (h1 : noWsHead c) (h2 : noWsHead a.reverse) :
    trimChars (c ++ mid ++ a) = c ++ mid ++ a := by
  refine trimChars_of_trimmed _ ?_ ?_
  · rw [List.append_assoc]
    exact noWsHead_append_left _ _ hc h1
  · rw [List.reverse_append]
    exact noWsHead_append_left _ _ (by simpa using ha) h2

theorem chPrefAt_self (l : List Char) : chPrefAt l l = true := by
  induction l with
  | nil => rfl
  | cons a t ih => simp [chPrefAt, ih]

theorem chContains_self (l : List Char) : chContains l l = true := by
  cases l with
  | nil => rfl
  | cons a t => simp [chContains, chPrefAt_self]

theorem chContains_append_right (pat xs ys : List Char)
    (h : chContains pat ys = true) : chContains pat (xs ++ ys) = true := by
  induction xs with
  | nil => simpa using h
  | cons x t ih => simp [chContains, ih]

theorem jsToLower_append (s t : String) :
    jsToLower (s ++ t) = jsToLower s ++ jsToLower t := by
  show String.mk _ = _
  rw [string_data_append, List.map_append]
  rfl

theorem strIncludes_append_self (x y a : String) :
    strIncludes (x ++ y ++ a) a = true := by
  show chContains a.data ((x ++ y ++ a).data) = true
  rw [string_data_append, string_data_append, List.append_assoc]
  exact chContains_append_right _ _ _
    (chContains_append_right _ _ _ (chContains_self a.data))

theorem jsTrim_append_sep (c a : String) (hc : jsTrim c ≠ "") (ha : jsTrim a ≠ "") :
    jsTrim (jsTrim c ++ " • " ++ jsTrim a) = jsTrim c ++ " • " ++ jsTrim a := by
  have hcd : (jsTrim c).data ≠ [] := fun h => hc ((string_eq_empty_iff _).2 h)
  have had : (jsTrim a).data ≠ [] := fun h => ha ((string_eq_empty_iff _).2 h)
  show String.mk (trimChars ((jsTrim c ++ " • " ++ jsTrim a).data)) = _
  rw [string_data_append, string_data_append,
    trimChars_append_of_trimmed _ _ _ hcd had (trimChars_noWsHead c.data)
      (trimChars_reverse_noWsHead a.data)]
  rfl

theorem jsTrim_append_sep_ne (c a : String) (hc : jsTrim c ≠ "") :
    jsTrim c ++ " • " ++ jsTrim a ≠ "" := by
  intro h
  have hd := (string_eq_empty_iff _).1 h
  rw [string_data_append, string_data_append, List.append_eq_nil,
    List.append_eq_nil] at hd
  exact hc ((string_eq_empty_iff _).2 hd.1.1)

/-- Claim C7: merging the same addition twice is a no-op after the first
(`mergeNote (mergeNote c a) a = mergeNote c a`); moreover when the lower-cased
(trimmed) current already contains the lower-cased trimmed addition as a
substring, the merge returns the trimmed current unchanged. -/
theorem C7_mergeNote_idem (c a : String) :
    appendNote (appendNote c a) a = appendNote c a ∧
    (jsTrim a ≠ "" → jsTrim c ≠ "" →
      strIncludes (jsToLower (jsTrim c)) (jsToLower (jsTrim a)) = true →
      appendNote c a = jsTrim c) := by
  constructor
  · by_cases ha : jsTrim a = ""
    · have h1 : appendNote c a = jsTrim c := by simp [appendNote, ha]
      rw [h1]
      simp [appendNote, ha, jsTrim_idem]
    · by_cases hc : jsTrim c = ""
      · have h1 : appendNote c a = jsTrim a := by simp [appendNote, ha, hc]
        rw [h1]
        simp [appendNote, ha, jsTrim_idem, strIncludes, chContains_self]
      · by_cases hinc : strIncludes (jsToLower (jsTrim c)) (jsToLower (jsTrim a)) = true
        · have h1 : appendNote c a = jsTrim c := by simp [appendNote, ha, hc, hinc]
          rw [h1]
          simp [appendNote, ha, hc, hinc, jsTrim_idem]
        · have h1 : appendNote c a = jsTrim c ++ " • " ++ jsTrim a := by
            simp [appendNote, ha, hc, hinc]
          rw [h1]
          have hR : jsTrim (jsTrim c ++ " • " ++ jsTrim a) =
              jsTrim c ++ " • " ++ jsTrim a := jsTrim_append_sep c a hc ha
          have hRne : jsTrim c ++ " • " ++ jsTrim a ≠ "" := jsTrim_append_sep_ne c a hc
          have hinc2 : strIncludes (jsToLower (jsTrim c ++ " • " ++ jsTrim a))
              (jsToLower (jsTrim a)) = true := by
            rw [jsToLower_append, jsToLower_append]
            exact strIncludes_append_self _ _ _
          simp only [appendNote, hR]
          rw [if_neg ha, if_neg hRne, if_pos hinc2]
  · intro ha hc hinc
    simp [appendNote, ha, hc, hinc]

/-- Witness for C7's substring clause at a concrete pair. -/
theorem C7_mergeNote_idem_witness : appendNote "Picked up by Mom " "picked up by mom" =
    jsTrim "Picked up by Mom " :=
  (C7_mergeNote_idem "Picked up by Mom " "picked up by mom").2 (by decide) (by decide)
    (by decide)

/-! ### minutesBetween and rounding -/

theorem round_div_60000 (d : Nat) :
    round ((d : ℚ) / 60000) = ((d + 30000) / 60000 : ℕ) := by
  have h1 : ((d + 30000) / 60000 : ℕ) * 120000 ≤ 2 * d + 60000 := by omega
  have h2 : 2 * d + 60000 < (((d + 30000) / 60000 : ℕ) + 1) * 120000 := by omega
  rw [round_eq]
  have h : (d : ℚ) / 60000 + 1 / 2 = ((2 * d + 60000 : ℕ) : ℚ) / ((120000 : ℕ) : ℚ) := by
    push_cast
    ring
  rw [h, Int.floor_eq_iff]
  constructor
  · rw [le_div_iff₀ (by norm_num)]
    exact_mod_cast h1
  · rw [div_lt_iff₀ (by norm_num)]
    exact_mod_cast h2

/-- Counterexample to claim C3 as stated: both endpoints are present and
`start ≤ end`, yet the code returns absent, because `!startMs` in the source
treats the present timestamp `0` as missing. -/
theorem C3_minutesBetween_cex :
    minutesBetween (some 0) (some 60000) = none ∧
    (0 : Nat) ≤ 60000 ∧
    some (round (((60000 : ℚ) - (0 : ℚ)) / 60000)).toNat ≠ (none : Option Nat) := by
  refine ⟨rfl, by norm_num, by simp⟩

/-- Claim C3 (amended): for both endpoints present and NONZERO, if
`start ≤ end` the result is `round((end - start) / 60000)` and that rounding
is non-negative; the result is absent when `end < start` or when either
endpoint is missing or zero. -/
theorem C3_minutesBetween_amended (s e : Nat) :
    (s ≠ 0 → e ≠ 0 → s ≤ e →
      minutesBetween (some s) (some e) =
        some (round (((e : ℚ) - (s : ℚ)) / 60000)).toNat ∧
      0 ≤ round (((e : ℚ) - (s : ℚ)) / 60000)) ∧
    (e < s → minutesBetween (some s) (some e) = none) ∧
    minutesBetween none (some e) = none ∧
    minutesBetween (some s) none = none ∧
    minutesBetween (some 0) (some e) = none ∧
    minutesBetween (some s) (some 0) = none := by
  refine ⟨?_, ?_, rfl, rfl, by simp [minutesBetween], by simp [minutesBetween]⟩
  · intro hs he hse
    have hcast : (e : ℚ) - (s : ℚ) = ((e - s : ℕ) : ℚ) := (Nat.cast_sub hse).symm
    rw [hcast, round_div_60000]
    constructor
    · have hne : ¬ (s = 0 ∨ e = 0) := by
        intro h
        cases h with
        | inl h => exact hs h
        | inr h => exact he h
      simp [minutesBetween, hne, Nat.not_lt.2 hse]
      omega
    · exact Int.natCast_nonneg _
  · intro hlt
    by_cases h0 : s = 0 ∨ e = 0
    · simp [minutesBetween, h0]
    · simp [minutesBetween, h0, hlt]

/-- Witness for the amended C3 at concrete nonzero timestamps. -/
theorem C3_minutesBetween_amended_witness :
    minutesBetween (some 1) (some 61000) =
      some (round (((61000 : ℚ) - (1 : ℚ)) / 60000)).toNat :=
  ((C3_minutesBetween_amended 1 61000).1 (by decide) (by decide) (by decide)).1

/-! ### Aggregator lemmas -/

/-- The minutes one day's map contributes to child `c`. -/
def dayMinutes (dm : DayMap) (c : String) : Nat :=
  ((dm.filter fun p => decide (p.1 = c)).map fun p => p.2.totalMinutes.getD 0).sum

/-- The day-count contribution (0 or 1 per record) of one day's map to `c`. -/
def dayDays (dm : DayMap) (c : String) : Nat :=
  (dm.filter fun p => decide (p.1 = c)).countP fun p => presentB p.2

theorem procDay_apply (dm : DayMap) (t : String → Nat × Nat) (c : String) :
    procDay t dm c = ((t c).1 + dayDays dm c, (t c).2 + dayMinutes dm c) := by
  induction dm generalizing t with
  | nil => simp [procDay, dayDays, dayMinutes]
  | cons p rest ih =>
    obtain ⟨k, a⟩ := p
    show procDay (updTotals t k a) rest c = _
    rw [ih]
    by_cases hk : k = c
    · subst hk
      simp only [updTotals, dayDays, dayMinutes, List.filter_cons, decide_eq_true_eq,
        if_pos rfl, List.countP_cons, List.map_cons, List.sum_cons, if_pos trivial]
      simp only [Prod.mk.injEq]
      constructor
      · by_cases hp : presentB a
        · simp only [hp, if_true]
          omega
        · simp only [hp, Bool.false_eq_true, if_false]
          omega
      · omega
    · have hck : ¬ (c = k) := fun h => hk h.symm
      simp [updTotals, dayDays, dayMinutes, List.filter_cons, hk, hck]

theorem foldDays_apply (ks : List String) (att : AttendanceHistory)
    (t : String → Nat × Nat) (c : String) :
    (ks.foldl (fun t dKey => procDay t ((getKey dKey att).getD [])) t) c =
      ((t c).1 + (ks.map fun k => dayDays ((getKey k att).getD []) c).sum,
       (t c).2 + (ks.map fun k => dayMinutes ((getKey k att).getD []) c).sum) := by
  induction ks generalizing t with
  | nil => simp
  | cons k rest ih =>
    rw [List.foldl_cons, ih, procDay_apply]
    simp [Nat.add_assoc]

theorem aggTotals_apply (att : AttendanceHistory) (c : String) :
    aggTotals att c =
      ((((att.map Prod.fst).insertionSort fun x y => x ≤ y).map
          fun k => dayDays ((getKey k att).getD []) c).sum,
       (((att.map Prod.fst).insertionSort fun x y => x ≤ y).map
          fun k => dayMinutes ((getKey k att).getD []) c).sum) := by
  unfold aggTotals
  rw [foldDays_apply]
  simp

theorem map_keys_getKey (att : AttendanceHistory) (f : DayMap → Nat)
    (hnd : (att.map Prod.fst).Nodup) :
    ((att.map Prod.fst).map fun k => f ((getKey k att).getD [])).sum =
      (att.map fun d => f d.2).sum := by
  induction att with
  | nil => simp
  | cons d rest ih =>
    obtain ⟨k0, dm⟩ := d
    rw [List.map_cons] at hnd
    rw [List.nodup_cons] at hnd
    simp only [List.map_cons, List.sum_cons]
    congr 1
    · simp [getKey]
    · rw [← ih hnd.2]
      apply congrArg List.sum
      apply List.map_congr_left
      intro k hkmem
      have hk0 : ¬ (k0 = k) := by
        intro h
        exact hnd.1 (h ▸ hkmem)
      simp [getKey, hk0]

theorem aggTotals_eq (att : AttendanceHistory) (c : String)
    (hnd : (att.map Prod.fst).Nodup) :
    aggTotals att c = ((att.map fun d => dayDays d.2 c).sum,
                       (att.map fun d => dayMinutes d.2 c).sum) := by
  rw [aggTotals_apply]
  have hperm := List.perm_insertionSort (fun x y : String => x ≤ y) (att.map Prod.fst)
  rw [(hperm.map fun k => dayDays ((getKey k att).getD []) c).sum_eq,
    (hperm.map fun k => dayMinutes ((getKey k att).getD []) c).sum_eq,
    map_keys_getKey att (fun dm => dayDays dm c) hnd,
    map_keys_getKey att (fun dm => dayMinutes dm c) hnd]

theorem recordsFor_countP (att : AttendanceHistory) (c : String) :
    (att.map fun d => dayDays d.2 c).sum =
      (recordsFor att c).countP fun a => presentB a := by
  induction att with
  | nil => rfl
  | cons d rest ih =>
    simp only [recordsFor, List.map_cons, List.sum_cons, List.countP_append, ih,
      dayDays, List.countP_map]
    simp only [Function.comp_def]
    congr 1

theorem recordsFor_minutes (att : AttendanceHistory) (c : String) :
    (att.map fun d => dayMinutes d.2 c).sum =
      ((recordsFor att c).map fun a => a.totalMinutes.getD 0).sum := by
  induction att with
  | nil => rfl
  | cons d rest ih =>
    simp only [recordsFor, List.map_cons, List.sum_cons, List.map_append,
      List.sum_append, ih, dayMinutes, List.map_map]
    simp only [Function.comp_def]
    congr 1

theorem recordsFor_nil_filter (att : AttendanceHistory) (c : String)
    (h : recordsFor att c = []) :
    ∀ d ∈ att, d.2.filter (fun p => decide (p.1 = c)) = [] := by
  induction att with
  | nil =>
    intro d hd
    simp at hd
  | cons d0 rest ih =>
    simp only [recordsFor, List.append_eq_nil, List.map_eq_nil_iff] at h
    intro d hd
    rcases List.mem_cons.1 hd with heq | hmem
    · rw [heq]
      exact h.1
    · exact ih h.2 d hmem

theorem aggTotals_of_no_records (att : AttendanceHistory) (c : String)
    (h : recordsFor att c = []) : aggTotals att c = (0, 0) := by
  rw [aggTotals_apply]
  have hz : ∀ k : String, dayDays ((getKey k att).getD []) c = 0 ∧
      dayMinutes ((getKey k att).getD []) c = 0 := by
    intro k
    cases hk : getKey k att with
    | none => simp [dayDays, dayMinutes]
    | some dm =>
      have hf := recordsFor_nil_filter att c h (k, dm) (getKey_mem k att dm hk)
      simp only at hf
      simp [dayDays, dayMinutes, hf]
  simp only [Prod.mk.injEq]
  constructor
  · refine List.sum_eq_zero ?_
    intro x hx
    obtain ⟨k, _, hfx⟩ := List.mem_map.1 hx
    rw [← hfx]
    exact (hz k).1
  · refine List.sum_eq_zero ?_
    intro x hx
    obtain ⟨k, _, hfx⟩ := List.mem_map.1 hx
    rw [← hfx]
    exact (hz k).2

theorem mem_reportRows (kids : List Child) (att : AttendanceHistory) (r : ReportRow)
    (h : r ∈ reportRows kids att) :
    ∃ k ∈ kids, r =
      { id := k.id, name := k.firstName ++ " " ++ k.lastName,
        days := (aggTotals att k.id).1, minutes := (aggTotals att k.id).2,
        active := k.isActive } := by
  unfold reportRows at h
  rw [List.mem_insertionSort] at h
  obtain ⟨k, hk, hkr⟩ := List.mem_map.1 h
  exact ⟨k, hk, hkr.symm⟩

/-- Counterexample to claim C4 as stated: a record with `checkInMs` present
but equal to `0` satisfies the claim's disjunctive predicate ("`checkInMs` is
set"), yet the aggregator does not count the day, because the source tests
truthiness (`!!a.checkInMs`) and `0` is falsy. -/
theorem C4_aggregate_cex :
    (aggTotals [("2024-01-01",
        [("c1", ⟨Status.ABSENT, some 0, none, none, some "", some ""⟩)])] "c1").1 = 0 ∧
    (recordsFor [("2024-01-01",
        [("c1", ⟨Status.ABSENT, some 0, none, none, some "", some ""⟩)])] "c1").countP
      (fun a => decide (a.status = Status.PRESENT) || a.checkInMs.isSome
        || decide (0 < a.totalMinutes.getD 0)) = 1 := by
  constructor
  · decide
  · decide

/-- Claim C4 (amended): with unique day keys, each child's cumulative minutes
is the sum of `totalMinutes` (0 when absent) over all of that child's day
records, and the day count is the number of day records satisfying the code's
presence predicate: `status = PRESENT`, or `checkInMs` set to a NONZERO
timestamp, or `totalMinutes > 0`; the report rows carry exactly these
totals. -/
theorem C4_aggregate_amended (att : AttendanceHistory) (c : String)
    (hnd : (att.map Prod.fst).Nodup) :
    (aggTotals att c).1 = (recordsFor att c).countP (fun a => presentB a) ∧
    (aggTotals att c).2 = ((recordsFor att c).map fun a => a.totalMinutes.getD 0).sum ∧
    (∀ a : Attendance, presentB a = true ↔
      (a.status = Status.PRESENT ∨ (∃ n, a.checkInMs = some n ∧ n ≠ 0) ∨
        0 < a.totalMinutes.getD 0)) ∧
    (∀ kids : List Child, ∀ r ∈ reportRows kids att,
      r.days = (aggTotals att r.id).1 ∧ r.minutes = (aggTotals att r.id).2) := by
  refine ⟨?_, ?_, ?_, ?_⟩
  · rw [aggTotals_eq att c hnd, ← recordsFor_countP]
  · rw [aggTotals_eq att c hnd, ← recordsFor_minutes]
  · intro a
    cases hms : a.checkInMs <;> simp [presentB, jsTruthy, hms]
    tauto
  · intro kids r hr
    obtain ⟨k, _, hkr⟩ := mem_reportRows kids att r hr
    rw [hkr]
    exact ⟨rfl, rfl⟩

/-- Witness for the amended C4 at a concrete one-day history. -/
theorem C4_aggregate_amended_witness :
    (aggTotals [("2024-01-01",
        [("c1", ⟨Status.PRESENT, some 9, none, some 45, some "", some ""⟩)])] "c1").1 =
      (recordsFor [("2024-01-01",
        [("c1", ⟨Status.PRESENT, some 9, none, some 45, some "", some ""⟩)])] "c1").countP
        (fun a => presentB a) :=
  (C4_aggregate_amended
    [("2024-01-01", [("c1", ⟨Status.PRESENT, some 9, none, some 45, some "", some ""⟩)])]
    "c1" (by decide)).1

/-- Claim C5: every roster child's id appears in the report output exactly as
often as in the roster (hence exactly once for distinct rosters), regardless
of `isActive`; a child with no history records gets `days = 0` and
`minutes = 0`. -/
theorem C5_report_complete (kids : List Child) (att : AttendanceHistory) :
    List.Perm ((reportRows kids att).map fun r => r.id) (kids.map fun k => k.id) ∧
    (∀ cid : String, ((reportRows kids att).map fun r => r.id).count cid =
      (kids.map fun k => k.id).count cid) ∧
    (∀ r ∈ reportRows kids att, recordsFor att r.id = [] →
      r.days = 0 ∧ r.minutes = 0) := by
  have hperm : List.Perm (reportRows kids att) (rawRows kids att) :=
    List.perm_insertionSort _ _
  have hraw : (rawRows kids att).map (fun r => r.id) = kids.map fun k => k.id := by
    simp [rawRows, List.map_map, Function.comp_def]
  have hids : List.Perm ((reportRows kids att).map fun r => r.id)
      (kids.map fun k => k.id) := by
    rw [← hraw]
    exact hperm.map _
  refine ⟨hids, fun cid => hids.count_eq cid, ?_⟩
  intro r hr hrec
  obtain ⟨k, _, hkr⟩ := mem_reportRows kids att r hr
  have hid : r.id = k.id := by rw [hkr]
  rw [hid] at hrec
  have hz := aggTotals_of_no_records att k.id hrec
  rw [hkr]
  simp [hz]

/-- Witness for C5 at a concrete one-child roster with empty history. -/
theorem C5_report_complete_witness :
    (⟨"k1", "A B", 0, 0, true⟩ : ReportRow).days = 0 ∧
    (⟨"k1", "A B", 0, 0, true⟩ : ReportRow).minutes = 0 :=
  (C5_report_complete [⟨"k1", "A", "B", true, "G", none⟩] []).2.2
    ⟨"k1", "A B", 0, 0, true⟩ (by decide) rfl

theorem filter_orderedInsert_eq (r : ReportRow) (m : Nat) (l : List ReportRow)
    (hm : r.minutes = m) :
    (List.orderedInsert rowGe r l).filter (fun x => decide (x.minutes = m)) =
      r :: l.filter (fun x => decide (x.minutes = m)) := by
  induction l with
  | nil => simp [List.orderedInsert, hm]
  | cons b t ih =>
    by_cases hb : rowGe r b
    · simp [List.orderedInsert, hb, hm]
    · have hbm : ¬ (b.minutes = m) := by
        intro h
        exact hb (le_of_eq (h.trans hm.symm))
      simp [List.orderedInsert, hb, hbm, ih]

theorem filter_orderedInsert_ne (r : ReportRow) (m : Nat) (l : List ReportRow)
    (hm : ¬ r.minutes = m) :
    (List.orderedInsert rowGe r l).filter (fun x => decide (x.minutes = m)) =
      l.filter (fun x => decide (x.minutes = m)) := by
  induction l with
  | nil => simp [List.orderedInsert, hm]
  | cons b t ih =>
    by_cases hb : rowGe r b
    · simp [List.orderedInsert, hb, hm]
    · simp [List.orderedInsert, hb, List.filter_cons, ih]

theorem filter_insertionSort_minutes (l : List ReportRow) (m : Nat) :
    (l.insertionSort rowGe).filter (fun x => decide (x.minutes = m)) =
      l.filter (fun x => decide (x.minutes = m)) := by
  induction l with
  | nil => rfl
  | cons r t ih =>
    show (List.orderedInsert rowGe r (t.insertionSort rowGe)).filter _ = _
    by_cases hm : r.minutes = m
    · rw [filter_orderedInsert_eq r m _ hm, ih]
      simp [hm]
    · rw [filter_orderedInsert_ne r m _ hm, ih]
      simp [hm]

/-- Claim C8: the report output is sorted by descending minutes (`rowGe`),
and tie groups are stable: for every minutes value the rows carrying it
appear in exactly the pre-sort roster order. -/
theorem C8_report_sorted_stable (kids : List Child) (att : AttendanceHistory) :
    List.Sorted rowGe (reportRows kids att) ∧
    (∀ a b : ReportRow, rowGe a b ↔ b.minutes ≤ a.minutes) ∧
    (∀ m : Nat, (reportRows kids att).filter (fun x => decide (x.minutes = m)) =
      (rawRows kids att).filter (fun x => decide (x.minutes = m))) :=
  ⟨List.sorted_insertionSort rowGe _, fun _ _ => Iff.rfl,
   fun m => filter_insertionSort_minutes _ m⟩

/-- Claim C9: when the trimmed first name, last name or guardian is empty,
`saveChild` is a no-op in either mode (roster and history returned unchanged);
when all three are non-empty, ADD appends exactly one new child carrying the
fresh id and the trimmed field values. -/
theorem C9_saveChild_validation (kids : List Child) (att : AttendanceHistory)
    (mode : ChildMode) (editId : Option String) (form : ChildForm) (freshId : String) :
    (jsTrim form.firstName = "" ∨ jsTrim form.lastName = "" ∨ jsTrim form.guardian = "" →
      saveChild kids att mode editId form freshId = (kids, att)) ∧
    (jsTrim form.firstName ≠ "" → jsTrim form.lastName ≠ "" → jsTrim form.guardian ≠ "" →
      saveChild kids att ChildMode.ADD editId form freshId =
        (kids ++ [{ id := freshId, firstName := jsTrim form.firstName,
                    lastName := jsTrim form.lastName,
                    guardian := jsTrim form.guardian,
                    allergies := some (jsTrim form.allergies),
                    isActive := form.isActive }], att)) := by
  constructor
  · intro h
    simp only [saveChild]
    rw [if_pos h]
  · intro hf hl hg
    simp only [saveChild]
    rw [if_neg (by simp [hf, hl, hg])]

/-- Witness for C9: a blank first name declines; a valid form appends the
trimmed child. -/
theorem C9_saveChild_validation_witness :
    saveChild [] [] ChildMode.ADD none ⟨" ", "B", "G", "", true⟩ "k9" = ([], []) ∧
    saveChild [] [] ChildMode.ADD none ⟨" A ", "B", "G", " x ", true⟩ "k9" =
      ([] ++ [{ id := "k9", firstName := jsTrim " A ", lastName := jsTrim "B",
                guardian := jsTrim "G", allergies := some (jsTrim " x "),
                isActive := true }], []) :=
  ⟨(C9_saveChild_validation [] [] ChildMode.ADD none ⟨" ", "B", "G", "", true⟩ "k9").1
      (Or.inl (by decide)),
   (C9_saveChild_validation [] [] ChildMode.ADD none ⟨" A ", "B", "G", " x ", true⟩ "k9").2
      (by decide) (by decide) (by decide)⟩

/-- Claim C10: the archive/restore toggle keeps the attendance history and the
roster's length and order, leaves every child whose id differs untouched, and
on the child with the clicked id flips exactly `isActive`, preserving id,
names, guardian and allergies. -/
theorem C10_toggle_frame (s : Snapshot) (cid : String) :
    (toggleArchive s cid).attendance = s.attendance ∧
    (toggleArchive s cid).kids.length = s.kids.length ∧
    (∀ i : Nat, ∀ x : Child, s.kids[i]? = some x →
      (x.id ≠ cid → (toggleArchive s cid).kids[i]? = some x) ∧
      (x.id = cid → (toggleArchive s cid).kids[i]? =
        some ⟨x.id, x.firstName, x.lastName, !x.isActive, x.guardian, x.allergies⟩)) := by
  refine ⟨rfl, by simp [toggleArchive], ?_⟩
  intro i x hx
  constructor
  · intro hne
    simp [toggleArchive, List.getElem?_map, hx, hne]
  · intro heq
    simp [toggleArchive, List.getElem?_map, hx, heq]

/-- Witness for C10 at a concrete one-child roster. -/
theorem C10_toggle_frame_witness :
    (toggleArchive ⟨[⟨"k1", "A", "B", true, "G", none⟩], []⟩ "k1").kids[0]? =
      some ⟨"k1", "A", "B", !true, "G", none⟩ :=
  ((C10_toggle_frame ⟨[⟨"k1", "A", "B", true, "G", none⟩], []⟩ "k1").2.2 0
    ⟨"k1", "A", "B", true, "G", none⟩ rfl).2 rfl
